import Mathlib

/-!
Verification of the orchestration core of a CBMC-on-AWS-Batch CI harness.

The definitions below are a shallow embedding of the Python modules
`bin/lock.py`, `bin/s3.py`, `bin/batch.py`, `bin/cbmc.py`, `bin/status.py`
and `bin/options.py`.  External services (the S3 object store and the AWS
Batch backend) are modelled as explicit state / oracle parameters; machine
integers are `Nat` (Python integers are unbounded); fallible code returns
`Except`.
-/

/-! ## Python string helpers -/

/-- Characters matched by Python's `\s` class (ASCII range), as used by
`re.sub(r'\s+', "", bound)` and `str.strip()`. -/
def pythonIsSpace (c : Char) : Bool :=
  c = ' ' || c = '\t' || c = '\n' || c = '\r' || c = '\x0b' || c = '\x0c'

/-- `re.sub(r'\s+', "", s)`: remove every whitespace character. -/
def removeSpaces (cs : List Char) : List Char :=
  cs.filter (fun c => !pythonIsSpace c)

/-- `str.strip()`: drop leading and trailing whitespace. -/
def pyStrip (cs : List Char) : List Char :=
  ((cs.dropWhile pythonIsSpace).reverse.dropWhile pythonIsSpace).reverse

/-- `int()` on a decimal digit string (leading zeros allowed). -/
def digitsToNat (ds : List Char) : Nat :=
  ds.foldl (fun n c => n * 10 + (c.toNat - '0'.toNat)) 0

/-! ## Errors

One error type covers the raise-sites of the lock/s3 modules:
`invalidLockName` models `LockException("Unknown lock: ...")` from
`Lock.validate_lock`; `invalidDuration` models
`LockException("Can't parse time bound: ...")` from `parse_bound`;
`lockTimeout` models the `botocore` `WaiterError` that propagates out of
`s3.wait_for_object_condition` when the waiter exhausts its attempts;
`s3Error` models `S3Exception` raised by `s3.abort`. -/

inductive LockErr where
  | invalidLockName (lock : String)
  | invalidDuration (bound : String)
  | lockTimeout
  | s3Error (msg : String)
deriving DecidableEq, Repr

/-! ## `lock.parse_bound`

The Python code strips whitespace and matches
`^(([0-9]+)d)?(([0-9]+)h)?(([0-9]+)m)?(([0-9]+)s)?$`.  Each optional
component is a maximal digit run followed by its unit letter; the unit
letters are pairwise distinct and none is a digit, so the regex match is
equivalent to the deterministic left-to-right component parser below. -/

/-- Parse one optional regex component `([0-9]+)x` at the front of `cs`:
consume a nonempty maximal digit run followed by the unit letter `suffix`,
or consume nothing. -/
def parseComponent (suffix : Char) (cs : List Char) : Nat × List Char :=
  let ds := cs.takeWhile Char.isDigit
  match cs.dropWhile Char.isDigit with
  | c :: rest => if ds ≠ [] ∧ c = suffix then (digitsToNat ds, rest) else (0, cs)
  | [] => (0, cs)

/-- The anchored regex match of `parse_bound`, returning the total second
count when the whole string is consumed. -/
def parse_bound_chars (cs : List Char) : Option Nat :=
  let r1 := parseComponent 'd' cs
  let r2 := parseComponent 'h' r1.2
  let r3 := parseComponent 'm' r2.2
  let r4 := parseComponent 's' r3.2
  if r4.2 = [] then some (((r1.1 * 24 + r2.1) * 60 + r3.1) * 60 + r4.1) else none

/-- `sys.maxsize` on a 64-bit platform, returned by `parse_bound(None)`. -/
def sysMaxsize : Nat := 2 ^ 63 - 1

/-- `lock.parse_bound`: `None` maps to `sys.maxsize`; otherwise whitespace
is removed and the duration grammar is matched, failing with the
invalid-duration error on a mismatch. -/
def parse_bound : Option String → Except LockErr Nat
  | none => .ok sysMaxsize
  | some b =>
    match parse_bound_chars (removeSpaces b.data) with
    | some n => .ok n
    | none => .error (.invalidDuration b)

/-! ### Spec-side duration grammar

Modelled from the spec: the duration-bound grammar
`^(\d+d)?(\d+h)?(\d+m)?(\d+s)?$` over whitespace-stripped input.  These
definitions follow the spec's words and are compared against `parse_bound`,
which was translated from the source. -/

/-- A grammar component value: a nonempty list of decimal digits. -/
def specDigits (ds : List Char) : Prop := ds ≠ [] ∧ ∀ c ∈ ds, c.isDigit

/-- An optional grammar component is absent or a nonempty digit run. -/
def specOk : Option (List Char) → Prop
  | none => True
  | some ds => specDigits ds

/-- Render one optional component `(\d+x)?` of the grammar. -/
def compRender (suffix : Char) : Option (List Char) → List Char
  | none => []
  | some ds => ds ++ [suffix]

/-- Numeric value of an optional component (absent counts as 0, as in
`match.group(i) or 0`). -/
def optVal : Option (List Char) → Nat
  | none => 0
  | some ds => digitsToNat ds

/-- Render a full duration string of the grammar. -/
def boundRender (d h m s : Option (List Char)) : List Char :=
  compRender 'd' d ++ (compRender 'h' h ++ (compRender 'm' m ++ compRender 's' s))

/-- The string belongs to the spec's duration grammar. -/
def matchesGrammar (cs : List Char) : Prop :=
  ∃ d h m s, specOk d ∧ specOk h ∧ specOk m ∧ specOk s ∧
    cs = boundRender d h m s

/-! ## `s3.py`: path parsing and the object-store model

`PATH_REGEXP = '^(s3://)?([a-z0-9][a-z0-9_-]*)(/(KEY))?/?(?i)$'` where
`KEY = [a-z0-9][a-z0-9_.-]*(/[a-z0-9][a-z0-9_.-]*)*`, applied to the
stripped input.  The trailing inline `(?i)` flag made the whole pattern
case-insensitive in the Python 3 versions this code ran on, so the letter
classes admit both cases.  Since `/`, `:` and whitespace are not in any
class, the regex match is equivalent to: optionally drop a caseless
`s3://`, split on `/`, allow one trailing empty segment, and check each
segment against its character class. -/

def isAlnumChar (c : Char) : Bool := c.isAlpha || c.isDigit

def isBucketChar (c : Char) : Bool := isAlnumChar c || c = '_' || c = '-'

def isKeyChar (c : Char) : Bool := isAlnumChar c || c = '_' || c = '.' || c = '-'

def isBucketSeg : List Char → Bool
  | [] => false
  | c :: cs => isAlnumChar c && cs.all isBucketChar

def isKeySeg : List Char → Bool
  | [] => false
  | c :: cs => isAlnumChar c && cs.all isKeyChar

/-- Drop a leading case-insensitive `s3://` if present. -/
def dropS3 : List Char → List Char
  | s :: '3' :: ':' :: '/' :: '/' :: rest =>
    if s = 's' || s = 'S' then rest else s :: '3' :: ':' :: '/' :: '/' :: rest
  | cs => cs

/-- `s3.parse_path`: bucket name and optional key of a bucket/object path. -/
def s3.parse_path (path : String) : Option (String × Option String) :=
  let cs := dropS3 (pyStrip path.data)
  let segs := cs.splitOn '/'
  let segs := match segs.getLast? with
    | some [] => segs.dropLast
    | _ => segs
  match segs with
  | [] => none
  | b :: keys =>
    if isBucketSeg b && keys.all isKeySeg then
      some (String.mk b,
            if keys = [] then none
            else some (String.intercalate "/" (keys.map String.mk)))
    else none

def s3.is_path (p : String) : Bool := (s3.parse_path p).isSome

def s3.is_bucket (p : String) : Bool :=
  match s3.parse_path p with
  | some (_, none) => true
  | _ => false

def s3.is_object (p : String) : Bool :=
  match s3.parse_path p with
  | some (_, some _) => true
  | _ => false

def s3.bucket_name (p : String) : Option String :=
  (s3.parse_path p).map Prod.fst

def s3.key_name (p : String) : Option String :=
  match s3.parse_path p with
  | some (_, k) => k
  | none => none

/-- The object store: existing buckets and existing objects, an object
being a (bucket, key) pair.  This models S3 with immediate consistency
(the single-writer, no-propagation-delay double of the spec). -/
structure S3World where
  buckets : List String
  objects : List (String × String)
deriving DecidableEq, Repr

/-- `s3.bucket_exists`: the path parses as a bare bucket and that bucket
exists (a missing or forbidden bucket reads as false). -/
def s3.bucket_exists (w : S3World) (p : String) : Bool :=
  match s3.parse_path p with
  | some (b, none) => w.buckets.contains b
  | _ => false

/-- `s3.object_exists`: the path parses as an object and a head request
finds it (404/403 read as false). -/
def s3.object_exists (w : S3World) (p : String) : Bool :=
  match s3.parse_path p with
  | some (b, some k) => w.objects.contains (b, k)
  | _ => false

/-- `s3.create_object` (with `force=False`): aborts unless the path is an
object name, then `put_object` creates-or-overwrites, so presence is
idempotent. -/
def s3.create_object (w : S3World) (p : String) : Except LockErr Unit × S3World :=
  match s3.parse_path p with
  | some (b, some k) =>
    (.ok (), ⟨w.buckets, if w.objects.contains (b, k) then w.objects
                         else w.objects ++ [(b, k)]⟩)
  | _ => (.error (.s3Error ("Not an object name: " ++ p)), w)

/-- `s3.delete_object` (non-recursive, `force=False`): aborts unless the
path parses and its bucket exists; `client.delete_object` then removes the
key, and deleting a nonexistent object is not an error. -/
def s3.delete_object (w : S3World) (p : String) : Except LockErr Unit × S3World :=
  match s3.parse_path p with
  | none => (.error (.s3Error ("Not an object name: " ++ p)), w)
  | some (b, k) =>
    if s3.bucket_exists w b then
      (.ok (), ⟨w.buckets, w.objects.filter (fun o => o ≠ (b, k.getD ""))⟩)
    else (.error (.s3Error ("No such bucket: " ++ p)), w)

/-- `s3.wait_for_object_condition`: silently returns when the path is not
an object name; otherwise the boto3 waiter polls the head-object condition
up to `attempts` times and a `WaiterError` propagates on exhaustion
(`wait_for_object_condition` catches only `ClientError`).  The store is
time-indexed by poll number. -/
def s3.wait_for_object_condition (worldAt : Nat → S3World) (p : String)
    (want : Bool) (attempts : Nat) : Except LockErr Unit :=
  if s3.is_object p = false then .ok ()
  else
    match (List.range attempts).find? (fun t => s3.object_exists (worldAt t) p = want) with
    | some _ => .ok ()
    | none => .error .lockTimeout

/-! ## `lock.py`: the Lock -/

/-- The fixed lock name set `LOCKS`. -/
def LOCKS : List String := ["build.txt", "property.txt", "coverage.txt", "report.txt"]

/-- A constructed `Lock`: bucket name and key prefix parsed from the path
given to `Lock.__init__` (`keyPart = ""` models a `None` prefix). -/
structure Lock where
  bucket : String
  keyPart : String
deriving DecidableEq, Repr

/-- `Lock.lock_path`. -/
def Lock.lock_path (lk : Lock) (lock : String) : String :=
  if lk.keyPart = "" then lk.bucket ++ "/" ++ lock
  else lk.bucket ++ "/" ++ lk.keyPart ++ "/" ++ lock

/-- `Lock.validate_lock`: raises `Unknown lock` outside the fixed set. -/
def Lock.validate_lock (lock : String) : Except LockErr Unit :=
  if lock ∈ LOCKS then .ok () else .error (.invalidLockName lock)

/-- `Lock.set`. -/
def Lock.set (lk : Lock) (w : S3World) (lock : String) :
    Except LockErr Unit × S3World :=
  match Lock.validate_lock lock with
  | .error e => (.error e, w)
  | .ok _ => s3.create_object w (lk.lock_path lock)

/-- `Lock.unset`. -/
def Lock.unset (lk : Lock) (w : S3World) (lock : String) :
    Except LockErr Unit × S3World :=
  match Lock.validate_lock lock with
  | .error e => (.error e, w)
  | .ok _ => s3.delete_object w (lk.lock_path lock)

/-- `Lock.is_set`. -/
def Lock.is_set (lk : Lock) (w : S3World) (lock : String) : Except LockErr Bool :=
  match Lock.validate_lock lock with
  | .error e => .error e
  | .ok _ => .ok (s3.object_exists w (lk.lock_path lock))

/-- `Lock.is_unset`. -/
def Lock.is_unset (lk : Lock) (w : S3World) (lock : String) : Except LockErr Bool :=
  match Lock.validate_lock lock with
  | .error e => .error e
  | .ok _ => .ok (!s3.object_exists w (lk.lock_path lock))

/-- The attempt budget `(parse_bound(bound) // interval) + 1` computed by
`Lock.wait_for_set` / `Lock.wait_for_unset`. -/
def Lock.wait_attempts (interval : Nat) (bound : Option String) :
    Except LockErr Nat :=
  match parse_bound bound with
  | .ok b => .ok (b / interval + 1)
  | .error e => .error e

/-- `Lock.wait_for_set`: validate, compute the attempt budget, then poll
the store for object presence. -/
def Lock.wait_for_set (lk : Lock) (worldAt : Nat → S3World) (lock : String)
    (interval : Nat) (bound : Option String) : Except LockErr Unit :=
  match Lock.validate_lock lock with
  | .error e => .error e
  | .ok _ =>
    match Lock.wait_attempts interval bound with
    | .error e => .error e
    | .ok attempts =>
      s3.wait_for_object_condition worldAt (lk.lock_path lock) true attempts

/-- `Lock.wait_for_unset`: as `wait_for_set` but polls for absence. -/
def Lock.wait_for_unset (lk : Lock) (worldAt : Nat → S3World) (lock : String)
    (interval : Nat) (bound : Option String) : Except LockErr Unit :=
  match Lock.validate_lock lock with
  | .error e => .error e
  | .ok _ =>
    match Lock.wait_attempts interval bound with
    | .error e => .error e
    | .ok attempts =>
      s3.wait_for_object_condition worldAt (lk.lock_path lock) false attempts

/-! ## `batch.py`: the Batch client

The AWS Batch backend is modelled by an oracle mapping the number of
previously submitted jobs to the submit-job response, and, for listing, by
a function from (queue, status) to the `jobSummaryList`.  A `ClientError`
from the backend would abort; the model covers the accepted-submission
path the orchestration claims are about. -/

/-- A configured `Batch` instance (`jobname=jobdef`, `queuename=jobqueue`). -/
structure Batch where
  jobdefinition : String
  jobqueue : String
  region : String
deriving DecidableEq, Repr

/-- `{'jobid': result.get('jobId', None), 'jobname': result.get('jobName', None)}`. -/
structure SubmitResult where
  jobid : Option String
  jobname : Option String
deriving DecidableEq, Repr

/-- One submission request as passed to `client.submit_job`. -/
structure BatchReq where
  jobName : String
  jobQueue : String
  jobDefinition : String
  command : Option (List String)
  memory : Option Nat
  dependsOn : List (Option String)
deriving DecidableEq, Repr

/-- `Batch.submit_job`: apply the `or`-defaults, extend a given command
with `--region`, wrap `dependson`, record the request and return the
backend's response. -/
def Batch.submit_job (b : Batch) (oracle : Nat → SubmitResult)
    (st : List BatchReq) (jobname : Option String)
    (command : Option (List String)) (memory : Option Nat)
    (dependson : Option (List (Option String))) :
    SubmitResult × List BatchReq :=
  let jn := match jobname with
    | some s => if s = "" then "cbmc" else s
    | none => "cbmc"
  let cmd := command.map (fun c => c ++ ["--region", b.region])
  let deps := dependson.getD []
  (oracle st.length, st ++ [⟨jn, b.jobqueue, b.jobdefinition, cmd, memory, deps⟩])

/-- The seven job status values polled by `Batch.job_status`. -/
def STATUSES : List String :=
  ["SUBMITTED", "PENDING", "RUNNABLE", "STARTING", "RUNNING", "SUCCEEDED", "FAILED"]

/-- One entry of a backend `jobSummaryList`. -/
structure JobSummary where
  jobId : String
  jobName : String
deriving DecidableEq, Repr

/-- One entry of a `Batch.job_status` result. -/
structure JobStatusEntry where
  jobId : String
  jobName : String
  status : String
deriving DecidableEq, Repr

/-- `re.search(pat, s)` for a metacharacter-free pattern: the pattern
occurs somewhere in the string (not an exact match). -/
def re_search (pat s : String) : Bool := decide (pat.data <:+: s.data)

/-- `flt and re.search(flt, s)`: an absent or empty filter is falsy and
never matches. -/
def optSearch : Option String → String → Bool
  | none, _ => false
  | some pat, s => if pat = "" then false else re_search pat s

/-- The per-job filter `jobid and re.search(jobid, job_id) or jobname and
re.search(jobname, job_name)`. -/
def statusFilter (jobid jobname : Option String) (j : JobSummary) : Bool :=
  optSearch jobid j.jobId || optSearch jobname j.jobName

/-- `Batch.job_status`: one `list_jobs` query per status value, keeping
filter matches tagged with that status; the second component records the
(queue, status) queries issued, in order. -/
def Batch.job_status (b : Batch) (backend : String → String → List JobSummary)
    (jobid jobname : Option String) :
    List JobStatusEntry × List (String × String) :=
  STATUSES.foldl
    (fun acc status =>
      (acc.1 ++ ((backend b.jobqueue status).filter (statusFilter jobid jobname)).map
          (fun j => ⟨j.jobId, j.jobName, status⟩),
       acc.2 ++ [(b.jobqueue, status)]))
    ([], [])

/-! ## `cbmc.py`: the phase orchestrator -/

/-- A `CBMC` instance: the option fields `submit_jobs` reads.  `jsons`
stands for the string `json.dumps(self.opts)` placed after `--jsons`. -/
structure CBMC where
  jobname : String
  jobdef : String
  jobqueue : String
  region : String
  jsons : String
  build : Bool
  property : Bool
  coverage : Bool
  report : Bool
  build_memory : Nat
  property_memory : Nat
  coverage_memory : Nat
  report_memory : Nat
deriving DecidableEq, Repr

/-- The `Batch` client constructed by `CBMC.__init__`. -/
def CBMC.batch (cb : CBMC) : Batch := ⟨cb.jobdef, cb.jobqueue, cb.region⟩

/-- `CBMC.launch_build`. -/
def CBMC.launch_build (cb : CBMC) (oracle : Nat → SubmitResult)
    (st : List BatchReq) (flags : Option (List String))
    (dependson : Option (List (Option String))) :
    SubmitResult × List BatchReq :=
  let flags := flags.getD []
  let jobname := cb.jobname ++ "-build"
  let full_flags := flags ++ ["--dobuild", "--jobname", jobname]
  cb.batch.submit_job oracle st (some jobname) (some full_flags)
    (some cb.build_memory) dependson

/-- `CBMC.launch_property`. -/
def CBMC.launch_property (cb : CBMC) (oracle : Nat → SubmitResult)
    (st : List BatchReq) (flags : Option (List String))
    (dependson : Option (List (Option String))) :
    SubmitResult × List BatchReq :=
  let flags := flags.getD []
  let jobname := cb.jobname ++ "-property"
  let full_flags := flags ++ ["--doproperty", "--jobname", jobname]
  cb.batch.submit_job oracle st (some jobname) (some full_flags)
    (some cb.property_memory) dependson

/-- `CBMC.launch_coverage`. -/
def CBMC.launch_coverage (cb : CBMC) (oracle : Nat → SubmitResult)
    (st : List BatchReq) (flags : Option (List String))
    (dependson : Option (List (Option String))) :
    SubmitResult × List BatchReq :=
  let flags := flags.getD []
  let jobname := cb.jobname ++ "-coverage"
  let full_flags := flags ++ ["--docoverage", "--jobname", jobname]
  cb.batch.submit_job oracle st (some jobname) (some full_flags)
    (some cb.coverage_memory) dependson

/-- `CBMC.launch_report`. -/
def CBMC.launch_report (cb : CBMC) (oracle : Nat → SubmitResult)
    (st : List BatchReq) (flags : Option (List String))
    (dependson : Option (List (Option String))) :
    SubmitResult × List BatchReq :=
  let flags := flags.getD []
  let jobname := cb.jobname ++ "-report"
  let full_flags := flags ++ ["--doreport", "--jobname", jobname]
  cb.batch.submit_job oracle st (some jobname) (some full_flags)
    (some cb.report_memory) dependson

/-- The `{jobid: None, jobname: None}` placeholder of an unscheduled phase. -/
def nullJob : SubmitResult := ⟨none, none⟩

/-- The aggregate result dictionary returned by `CBMC.submit_jobs`. -/
structure SubmitResults where
  jobname : String
  build : SubmitResult
  property : SubmitResult
  coverage : SubmitResult
  report : SubmitResult
deriving DecidableEq, Repr

/-- `CBMC.submit_jobs`: submit each enabled phase in build, property,
coverage, report order with the dependency lists of the source, returning
the aggregate result and the submissions made. -/
def CBMC.submit_jobs (cb : CBMC) (oracle : Nat → SubmitResult) :
    SubmitResults × List BatchReq :=
  let command := ["--jsons", cb.jsons]
  let b0 : SubmitResult × List (Option String) × List BatchReq :=
    if cb.build then
      let r := cb.launch_build oracle [] (some command) none
      (r.1, [r.1.jobid], r.2)
    else (nullJob, [], [])
  let p0 : SubmitResult × List (Option String) × List BatchReq :=
    if cb.property then
      let r := cb.launch_property oracle b0.2.2 (some command) (some b0.2.1)
      (r.1, [r.1.jobid], r.2)
    else (nullJob, [], b0.2.2)
  let c0 : SubmitResult × List (Option String) × List BatchReq :=
    if cb.coverage then
      let r := cb.launch_coverage oracle p0.2.2 (some command) (some b0.2.1)
      (r.1, [r.1.jobid], r.2)
    else (nullJob, [], p0.2.2)
  let r0 : SubmitResult × List BatchReq :=
    if cb.report then
      let r := cb.launch_report oracle c0.2.2 (some command) (some (p0.2.1 ++ c0.2.1))
      (r.1, r.2)
    else (nullJob, c0.2.2)
  (⟨cb.jobname, b0.1, p0.1, c0.1, r0.1⟩, r0.2)

/-- Number of submissions made before the property phase. -/
def bIdx (cb : CBMC) : Nat := cond cb.build 1 0

/-- Number of submissions made before the coverage phase. -/
def pIdx (cb : CBMC) : Nat := bIdx cb + cond cb.property 1 0

/-- Number of submissions made before the report phase. -/
def cIdx (cb : CBMC) : Nat := pIdx cb + cond cb.coverage 1 0

/-! ## `status.py`: the status monitor

`monitor_status` keeps a dict from job id to the last seen job entry.
Faithful detail: the loop body's assignment `jobid = job['jobId']` rebinds
the function's `jobid` filter parameter, so every poll after the first
uses the id of the last processed job as the id filter instead of the
filter the caller passed in.  The embedding threads that variable
explicitly.  The backend is time-indexed by poll cycle, and the run record
exposes the filters used per poll, the change detections, and the number
of sleeps, which the claims are about. -/

/-- `status.get(jobid, None)` on the ordered dict model. -/
def lookupT (m : List (String × JobStatusEntry)) (k : String) :
    Option JobStatusEntry :=
  match m.find? (fun p => p.1 = k) with
  | some p => some p.2
  | none => none

/-- `status[jobid] = job`: update in place, else append (Python dicts
preserve insertion order). -/
def setT (m : List (String × JobStatusEntry)) (k : String)
    (v : JobStatusEntry) : List (String × JobStatusEntry) :=
  if (m.find? (fun p => p.1 = k)).isSome then
    m.map (fun p => if p.1 = k then (k, v) else p)
  else m ++ [(k, v)]

/-- State of the `for job in jobs` loop body. -/
structure FoldSt where
  tracked : List (String × JobStatusEntry)
  jobid : Option String
  change : Bool
  events : List (Nat × String × String)
deriving DecidableEq, Repr

/-- One iteration of the `for job in jobs` loop: rebind `jobid`, then
record the job if its status is new or changed. -/
def processJob (t : Nat) (acc : FoldSt) (job : JobStatusEntry) : FoldSt :=
  let jobid := some job.jobId
  match lookupT acc.tracked job.jobId with
  | some cur =>
    if job.status ≠ cur.status then
      ⟨setT acc.tracked job.jobId job, jobid, true,
       acc.events ++ [(t, job.jobId, job.status)]⟩
    else ⟨acc.tracked, jobid, acc.change, acc.events⟩
  | none =>
    ⟨setT acc.tracked job.jobId job, jobid, true,
     acc.events ++ [(t, job.jobId, job.status)]⟩

/-- A job status from which no transition occurs. -/
def isTerminal (s : String) : Bool := s = "SUCCEEDED" || s = "FAILED"

/-- Observable outcome of a (fuel-bounded) `monitor_status` run.
`finished = false` means the loop was still running when the fuel ran
out. -/
structure MonitorRun where
  finished : Bool
  polls : List (Option String × Option String)
  events : List (Nat × String × String)
  sleeps : Nat
  tracked : List (String × JobStatusEntry)
deriving DecidableEq, Repr

/-- The `while True` loop of `monitor_status`.  Arguments after `fuel`:
cycle number, current value of the (rebindable) `jobid` variable, the
`status` dict, and the poll/event/sleep logs. -/
def monitorGo (b : Batch) (backendAt : Nat → String → String → List JobSummary)
    (jobname : Option String) :
    Nat → Nat → Option String → List (String × JobStatusEntry) →
    List (Option String × Option String) → List (Nat × String × String) →
    Nat → MonitorRun
  | 0, _, _, tracked, polls, events, sleeps =>
    ⟨false, polls, events, sleeps, tracked⟩
  | fuel + 1, t, jobid, tracked, polls, events, sleeps =>
    let jobs := (Batch.job_status b (backendAt t) jobid jobname).1
    let polls := polls ++ [(jobid, jobname)]
    let fs := jobs.foldl (processJob t) ⟨tracked, jobid, false, events⟩
    let stop := fs.tracked.all (fun p => isTerminal p.2.status)
    if stop then ⟨true, polls, fs.events, sleeps, fs.tracked⟩
    else monitorGo b backendAt jobname fuel (t + 1) fs.jobid fs.tracked polls
      fs.events (sleeps + 1)

/-- `status.monitor_status(batch, jobname, jobid)`. -/
def monitor_status (b : Batch)
    (backendAt : Nat → String → String → List JobSummary)
    (jobname jobid : Option String) (fuel : Nat) : MonitorRun :=
  monitorGo b backendAt jobname fuel 0 jobid [] [] [] 0

/-! ## `options.py`: container option merging -/

/-- `merge(val1, val2, val3)`: first defined source wins
(command line > config file > default). -/
def merge {α : Type} : Option α → Option α → α → α
  | some v, _, _ => v
  | none, some v, _ => v
  | none, none, d => d

/-- `more_than_one_set(bits)`. -/
def more_than_one_set (bits : List Bool) : Bool :=
  (bits.foldl (fun c b => c + (if b then 1 else 0)) 0) > 1

/-- The four container phase flags as given on the command line or in the
config source (each `None` when unset). -/
structure ContainerArgs where
  dobuild : Option Bool
  doproperty : Option Bool
  docoverage : Option Bool
  doreport : Option Bool
deriving DecidableEq, Repr

/-- The merged container phase flags. -/
structure ContainerOpts where
  dobuild : Bool
  doproperty : Bool
  docoverage : Bool
  doreport : Bool
deriving DecidableEq, Repr

/-- `options.container_merge`: merge each flag with default `False`, then
abort when more than one resolves true. -/
def container_merge (args config : ContainerArgs) :
    Except String ContainerOpts :=
  let b := merge args.dobuild config.dobuild false
  let p := merge args.doproperty config.doproperty false
  let c := merge args.docoverage config.docoverage false
  let r := merge args.doreport config.doreport false
  if more_than_one_set [b, p, c, r] then
    .error "Too many commands passed to docker container."
  else .ok ⟨b, p, c, r⟩

/-- The four phase-selection flags a container command may carry. -/
def isDoFlag (s : String) : Bool :=
  s == "--dobuild" || s == "--doproperty" || s == "--docoverage" || s == "--doreport"

/-- Phase flag / jobname-suffix pairs of the four launch methods. -/
def phasePairs : List (String × String) :=
  [("--dobuild", "-build"), ("--doproperty", "-property"),
   ("--docoverage", "-coverage"), ("--doreport", "-report")]

/-! ## Explicit forms of the four phase submissions

The request each `launch_*` method hands to `Batch.submit_job` inside
`submit_jobs`, written out: command = `['--jsons', opts]` + phase flags +
`['--region', region]`, and the dependency lists built from `buildjob`,
`propertyjob` and `coveragejob`. -/

def CBMCbuildReq (cb : CBMC) : BatchReq :=
  ⟨cb.jobname ++ "-build", cb.jobqueue, cb.jobdef,
   some ["--jsons", cb.jsons, "--dobuild", "--jobname", cb.jobname ++ "-build",
         "--region", cb.region],
   some cb.build_memory, []⟩

def CBMCpropReq (cb : CBMC) (oracle : Nat → SubmitResult) : BatchReq :=
  ⟨cb.jobname ++ "-property", cb.jobqueue, cb.jobdef,
   some ["--jsons", cb.jsons, "--doproperty", "--jobname", cb.jobname ++ "-property",
         "--region", cb.region],
   some cb.property_memory, if cb.build then [(oracle 0).jobid] else []⟩

def CBMCcovReq (cb : CBMC) (oracle : Nat → SubmitResult) : BatchReq :=
  ⟨cb.jobname ++ "-coverage", cb.jobqueue, cb.jobdef,
   some ["--jsons", cb.jsons, "--docoverage", "--jobname", cb.jobname ++ "-coverage",
         "--region", cb.region],
   some cb.coverage_memory, if cb.build then [(oracle 0).jobid] else []⟩

def CBMCrepReq (cb : CBMC) (oracle : Nat → SubmitResult) : BatchReq :=
  ⟨cb.jobname ++ "-report", cb.jobqueue, cb.jobdef,
   some ["--jsons", cb.jsons, "--doreport", "--jobname", cb.jobname ++ "-report",
         "--region", cb.region],
   some cb.report_memory,
   (if cb.property then [(oracle (bIdx cb)).jobid] else []) ++
   (if cb.coverage then [(oracle (pIdx cb)).jobid] else [])⟩

instance {e a : Type} [DecidableEq e] [DecidableEq a] : DecidableEq (Except e a) := fun x y =>
  match x, y with
  | .error e1, .error e2 =>
    if h : e1 = e2 then isTrue (congrArg Except.error h)
    else isFalse (fun he => h (by injection he))
  | .ok a1, .ok a2 =>
    if h : a1 = a2 then isTrue (congrArg Except.ok h)
    else isFalse (fun he => h (by injection he))
  | .error _, .ok _ => isFalse (fun he => Except.noConfusion he)
  | .ok _, .error _ => isFalse (fun he => Except.noConfusion he)

/-! ## Concrete instances used by witnesses and counterexamples -/

/-- A batch backend that lists the same job id under two statuses within
one poll (a job that moved from RUNNING to SUCCEEDED between the two
per-status queries of a single `job_status` call). -/
def c7CexBackend : String → String → List JobSummary := fun _ st =>
  if st = "RUNNING" || st = "SUCCEEDED" then [⟨"job1", "n1"⟩] else []

/-- A backend where each id is listed under exactly one status. -/
def c7WitBackend : String → String → List JobSummary := fun _ st =>
  if st = "RUNNING" then [⟨"a1", "n1"⟩] else []

def monitorDemoBatch : Batch := ⟨"jobdef", "queue", "region"⟩

/-- A time-indexed backend: at poll 0 both jobs are RUNNING; from poll 1
on, both are SUCCEEDED (each job under exactly one status per poll). -/
def monitorDemoBackend : Nat → String → String → List JobSummary := fun t _ st =>
  if t = 0 then
    (if st = "RUNNING" then [⟨"job1", "name1"⟩, ⟨"job2", "name2"⟩] else [])
  else
    (if st = "SUCCEEDED" then [⟨"job1", "name1"⟩, ⟨"job2", "name2"⟩] else [])

def orWitA : Nat → SubmitResult := fun n =>
  match n with
  | 0 => ⟨some "idb", some "nmb"⟩
  | 1 => ⟨some "idp", some "nmp"⟩
  | 2 => ⟨some "idc", some "nmc"⟩
  | _ => ⟨some "idr", some "nmr"⟩

def cbWitA : CBMC :=
  ⟨"run", "ubuntu16-gcc", "CBMCJobQueue", "us-west-2", "OPTSJSON",
   true, true, true, true, 8000, 16000, 16000, 8000⟩

def orWitB : Nat → SubmitResult := fun _ => ⟨some "i", some "n"⟩

def cbWitB : CBMC :=
  ⟨"job", "jd", "jq", "eu-west-1", "CFG", true, false, false, false,
   8000, 16000, 16000, 8000⟩

/-! ## String helper lemmas -/

lemma data_append_eq (a b : String) : (a ++ b).data = a.data ++ b.data := by
  cases a
  cases b
  rfl

lemma append_lit_ne_empty {b : String} (hb : b.data ≠ []) (a : String) :
    (a ++ b = "") = False := by
  apply eq_false
  intro h
  apply hb
  have h2 : (a ++ b).data = ("" : String).data := congrArg String.data h
  rw [data_append_eq] at h2
  exact (List.append_eq_nil.mp (by simpa using h2)).2

@[simp] lemma build_name_ne_empty (a : String) : (a ++ "-build" = "") = False :=
  append_lit_ne_empty (by decide) a

@[simp] lemma property_name_ne_empty (a : String) : (a ++ "-property" = "") = False :=
  append_lit_ne_empty (by decide) a

@[simp] lemma coverage_name_ne_empty (a : String) : (a ++ "-coverage" = "") = False :=
  append_lit_ne_empty (by decide) a

@[simp] lemma report_name_ne_empty (a : String) : (a ++ "-report" = "") = False :=
  append_lit_ne_empty (by decide) a

lemma append_right_inj (a : String) {b c : String} : a ++ b = a ++ c ↔ b = c := by
  constructor
  · intro h
    have h2 : (a ++ b).data = (a ++ c).data := congrArg String.data h
    rw [data_append_eq, data_append_eq] at h2
    cases b
    cases c
    exact congrArg String.mk (List.append_cancel_left h2)
  · intro h
    rw [h]

lemma append_ne_of_not_suffix {sfx flag : String}
    (h : ¬ sfx.data <:+ flag.data) (a : String) : (a ++ sfx = flag) = False := by
  apply eq_false
  intro he
  apply h
  refine ⟨a.data, ?_⟩
  rw [← data_append_eq, he]

lemma isDoFlag_append (a sfx : String)
    (h1 : ¬ sfx.data <:+ "--dobuild".data) (h2 : ¬ sfx.data <:+ "--doproperty".data)
    (h3 : ¬ sfx.data <:+ "--docoverage".data) (h4 : ¬ sfx.data <:+ "--doreport".data) :
    isDoFlag (a ++ sfx) = false := by
  simp only [isDoFlag, Bool.or_eq_false_iff, beq_eq_false_iff_ne, ne_eq]
  refine ⟨⟨⟨?_, ?_⟩, ?_⟩, ?_⟩ <;> intro he
  · exact h1 ⟨a.data, by rw [← data_append_eq, he]⟩
  · exact h2 ⟨a.data, by rw [← data_append_eq, he]⟩
  · exact h3 ⟨a.data, by rw [← data_append_eq, he]⟩
  · exact h4 ⟨a.data, by rw [← data_append_eq, he]⟩

@[simp] lemma isDoFlag_build_name (a : String) : isDoFlag (a ++ "-build") = false :=
  isDoFlag_append a "-build" (by decide) (by decide) (by decide) (by decide)

@[simp] lemma isDoFlag_property_name (a : String) : isDoFlag (a ++ "-property") = false :=
  isDoFlag_append a "-property" (by decide) (by decide) (by decide) (by decide)

@[simp] lemma isDoFlag_coverage_name (a : String) : isDoFlag (a ++ "-coverage") = false :=
  isDoFlag_append a "-coverage" (by decide) (by decide) (by decide) (by decide)

@[simp] lemma isDoFlag_report_name (a : String) : isDoFlag (a ++ "-report") = false :=
  isDoFlag_append a "-report" (by decide) (by decide) (by decide) (by decide)

@[simp] lemma isDoFlag_jsons_lit : isDoFlag "--jsons" = false := by decide

@[simp] lemma isDoFlag_jobname_lit : isDoFlag "--jobname" = false := by decide

@[simp] lemma isDoFlag_region_lit : isDoFlag "--region" = false := by decide

@[simp] lemma isDoFlag_dobuild_lit : isDoFlag "--dobuild" = true := by decide

@[simp] lemma isDoFlag_doproperty_lit : isDoFlag "--doproperty" = true := by decide

@[simp] lemma isDoFlag_docoverage_lit : isDoFlag "--docoverage" = true := by decide

@[simp] lemma isDoFlag_doreport_lit : isDoFlag "--doreport" = true := by decide

lemma mem_ite_singleton {α : Type} {x y : α} {c : Bool} :
    x ∈ (if c = true then [y] else ([] : List α)) → x = y := by
  cases c <;> simp

/-! ## The submissions and the aggregate result of `submit_jobs` -/

lemma submit_jobs_eq (cb : CBMC) (oracle : Nat → SubmitResult) :
    cb.submit_jobs oracle =
      (⟨cb.jobname,
        if cb.build then oracle 0 else nullJob,
        if cb.property then oracle (bIdx cb) else nullJob,
        if cb.coverage then oracle (pIdx cb) else nullJob,
        if cb.report then oracle (cIdx cb) else nullJob⟩,
       (if cb.build then [CBMCbuildReq cb] else []) ++
       (if cb.property then [CBMCpropReq cb oracle] else []) ++
       (if cb.coverage then [CBMCcovReq cb oracle] else []) ++
       (if cb.report then [CBMCrepReq cb oracle] else [])) := by
  cases hb : cb.build <;> cases hp : cb.property <;> cases hc : cb.coverage <;>
    cases hr : cb.report <;>
    simp [CBMC.submit_jobs, CBMC.launch_build, CBMC.launch_property,
      CBMC.launch_coverage, CBMC.launch_report, Batch.submit_job, CBMC.batch,
      bIdx, pIdx, cIdx, CBMCbuildReq, CBMCpropReq, CBMCcovReq, CBMCrepReq,
      hb, hp, hc, hr]

/-! ## `job_status` as a per-status flat map -/

lemma job_status_foldl (b : Batch) (backend : String → String → List JobSummary)
    (jobid jobname : Option String) (l : List String)
    (acc : List JobStatusEntry × List (String × String)) :
    l.foldl
      (fun acc status =>
        (acc.1 ++ ((backend b.jobqueue status).filter (statusFilter jobid jobname)).map
            (fun j => ⟨j.jobId, j.jobName, status⟩),
         acc.2 ++ [(b.jobqueue, status)])) acc =
      (acc.1 ++ l.flatMap (fun status =>
         ((backend b.jobqueue status).filter (statusFilter jobid jobname)).map
           (fun j => ⟨j.jobId, j.jobName, status⟩)),
       acc.2 ++ l.map (fun status => (b.jobqueue, status))) := by
  induction l generalizing acc with
  | nil => simp
  | cons s rest ih =>
    simp only [List.foldl_cons, ih, List.flatMap_cons, List.map_cons]
    simp

lemma job_status_eq (b : Batch) (backend : String → String → List JobSummary)
    (jobid jobname : Option String) :
    Batch.job_status b backend jobid jobname =
      (STATUSES.flatMap (fun status =>
         ((backend b.jobqueue status).filter (statusFilter jobid jobname)).map
           (fun j => ⟨j.jobId, j.jobName, status⟩)),
       STATUSES.map (fun status => (b.jobqueue, status))) := by
  unfold Batch.job_status
  rw [job_status_foldl]
  simp

lemma flatMap_sublist {α β : Type} (l : List α) (f g : α → List β)
    (h : ∀ a, (f a).Sublist (g a)) : (l.flatMap f).Sublist (l.flatMap g) := by
  induction l with
  | nil => simp
  | cons a rest ih =>
    simp only [List.flatMap_cons]
    exact (h a).append ih

/-! ## Lock and S3 helper lemmas -/

lemma is_object_parse {p : String} (h : s3.is_object p = true) :
    ∃ b k, s3.parse_path p = some (b, some k) := by
  unfold s3.is_object at h
  cases hp : s3.parse_path p with
  | none =>
    rw [hp] at h
    simp at h
  | some pr =>
    obtain ⟨b, ko⟩ := pr
    cases ko with
    | none =>
      rw [hp] at h
      simp at h
    | some k => exact ⟨b, k, rfl⟩

lemma filter_ne_idem (l : List (String × String)) (x : String × String) :
    (l.filter (fun o => o ≠ x)).filter (fun o => o ≠ x) =
      l.filter (fun o => o ≠ x) := by
  rw [List.filter_filter]
  apply List.filter_congr
  intro a _
  simp

lemma lock_set_eq (lk : Lock) (w' : S3World) (lock b k : String)
    (hl : lock ∈ LOCKS)
    (hpp : s3.parse_path (lk.lock_path lock) = some (b, some k)) :
    Lock.set lk w' lock =
      (.ok (), ⟨w'.buckets,
        if w'.objects.contains (b, k) then w'.objects
        else w'.objects ++ [(b, k)]⟩) := by
  simp [Lock.set, Lock.validate_lock, hl, s3.create_object, hpp]

lemma lock_unset_eq (lk : Lock) (w' : S3World) (lock b k : String)
    (hl : lock ∈ LOCKS)
    (hpp : s3.parse_path (lk.lock_path lock) = some (b, some k))
    (hb : s3.bucket_exists w' b = true) :
    Lock.unset lk w' lock =
      (.ok (), ⟨w'.buckets, w'.objects.filter (fun o => o ≠ (b, k))⟩) := by
  simp [Lock.unset, Lock.validate_lock, hl, s3.delete_object, hpp, hb]

lemma lock_is_set_eq (lk : Lock) (w' : S3World) (lock b k : String)
    (hl : lock ∈ LOCKS)
    (hpp : s3.parse_path (lk.lock_path lock) = some (b, some k)) :
    Lock.is_set lk w' lock = .ok (w'.objects.contains (b, k)) := by
  simp [Lock.is_set, Lock.validate_lock, hl, s3.object_exists, hpp]

lemma lock_is_unset_eq (lk : Lock) (w' : S3World) (lock b k : String)
    (hl : lock ∈ LOCKS)
    (hpp : s3.parse_path (lk.lock_path lock) = some (b, some k)) :
    Lock.is_unset lk w' lock = .ok (!w'.objects.contains (b, k)) := by
  simp [Lock.is_unset, Lock.validate_lock, hl, s3.object_exists, hpp]

/-! ## Duration-grammar helper lemmas -/

lemma takeWhile_app_stop {p : Char → Bool} {ds : List Char}
    (h : ∀ c ∈ ds, p c = true) {x : Char} (hx : p x = false) (rest : List Char) :
    (ds ++ x :: rest).takeWhile p = ds ∧ (ds ++ x :: rest).dropWhile p = x :: rest := by
  induction ds with
  | nil =>
    simp [List.takeWhile_cons, List.dropWhile_cons, hx]
  | cons d ds ih =>
    have hd : p d = true := h d (List.mem_cons_self d ds)
    have ht := ih (fun c hc => h c (List.mem_cons_of_mem d hc))
    simp [List.takeWhile_cons, List.dropWhile_cons, hd, ht.1, ht.2]

lemma parseComponent_some {suffix : Char} (hs : suffix.isDigit = false)
    {ds : List Char} (hds : specDigits ds) (rest : List Char) :
    parseComponent suffix (ds ++ suffix :: rest) = (digitsToNat ds, rest) := by
  obtain ⟨hne, hdig⟩ := hds
  have hsplit := takeWhile_app_stop (p := Char.isDigit) (fun c hc => hdig c hc) hs rest
  unfold parseComponent
  rw [hsplit.1, hsplit.2]
  simp [hne]

lemma parseComponent_skip {suffix : Char} {cs : List Char}
    (h : cs.takeWhile Char.isDigit = [] ∨
      (cs.dropWhile Char.isDigit).head? ≠ some suffix) :
    parseComponent suffix cs = (0, cs) := by
  unfold parseComponent
  cases hd : cs.dropWhile Char.isDigit with
  | nil => simp
  | cons c rest =>
    rcases h with h | h
    · simp [h]
    · rw [hd] at h
      have : ¬ (c = suffix) := by
        intro he
        exact h (by rw [he]; rfl)
      simp [this]

lemma render_head_cases (suffix : Char) (hs : suffix.isDigit = false)
    (oc : Option (List Char)) (hok : specOk oc) (restR : List Char)
    (tail : List Char)
    (ih : restR.takeWhile Char.isDigit = [] ∨
      ∃ c, (restR.dropWhile Char.isDigit).head? = some c ∧ c ∈ tail) :
    (compRender suffix oc ++ restR).takeWhile Char.isDigit = [] ∨
      ∃ c, ((compRender suffix oc ++ restR).dropWhile Char.isDigit).head? = some c ∧
        c ∈ suffix :: tail := by
  cases oc with
  | none =>
    simp only [compRender, List.nil_append]
    rcases ih with h | ⟨c, hc, hmem⟩
    · exact Or.inl h
    · exact Or.inr ⟨c, hc, List.mem_cons_of_mem _ hmem⟩
  | some ds =>
    obtain ⟨hne, hdig⟩ := hok
    have hsplit := takeWhile_app_stop (p := Char.isDigit) hdig hs restR
    right
    refine ⟨suffix, ?_, List.mem_cons_self _ _⟩
    have : ds ++ [suffix] ++ restR = ds ++ suffix :: restR := by
      simp
    rw [compRender, this, hsplit.2]
    rfl

lemma parseComponent_render (suffix : Char) (hs : suffix.isDigit = false)
    (oc : Option (List Char)) (hok : specOk oc) (restR : List Char)
    (tail : List Char)
    (hrest : restR.takeWhile Char.isDigit = [] ∨
      ∃ c, (restR.dropWhile Char.isDigit).head? = some c ∧ c ∈ tail)
    (hns : suffix ∉ tail) :
    parseComponent suffix (compRender suffix oc ++ restR) = (optVal oc, restR) := by
  cases oc with
  | none =>
    simp only [compRender, List.nil_append, optVal]
    apply parseComponent_skip
    rcases hrest with h | ⟨c, hc, hmem⟩
    · exact Or.inl h
    · right
      rw [hc]
      intro he
      injection he with he2
      exact hns (he2 ▸ hmem)
  | some ds =>
    have : compRender suffix (some ds) ++ restR = ds ++ suffix :: restR := by
      simp [compRender]
    rw [this, optVal]
    exact parseComponent_some hs hok restR

lemma parse_bound_chars_render (od oh om os : Option (List Char))
    (h1 : specOk od) (h2 : specOk oh) (h3 : specOk om) (h4 : specOk os) :
    parse_bound_chars (boundRender od oh om os) =
      some ((((optVal od) * 24 + optVal oh) * 60 + optVal om) * 60 + optVal os) := by
  have hSnil : (compRender 's' os).takeWhile Char.isDigit = [] ∨
      ∃ c, ((compRender 's' os).dropWhile Char.isDigit).head? = some c ∧
        c ∈ ['s'] := by
    have := render_head_cases 's' (by decide) os h4 [] [] (Or.inl rfl)
    simpa using this
  have hMS := render_head_cases 'm' (by decide) om h3 (compRender 's' os) ['s'] hSnil
  have hHMS := render_head_cases 'h' (by decide) oh h2
    (compRender 'm' om ++ compRender 's' os) ['m', 's'] hMS
  have step1 : parseComponent 'd' (boundRender od oh om os) =
      (optVal od, compRender 'h' oh ++ (compRender 'm' om ++ compRender 's' os)) :=
    parseComponent_render 'd' (by decide) od h1 _ ['h', 'm', 's'] hHMS (by decide)
  have step2 : parseComponent 'h'
      (compRender 'h' oh ++ (compRender 'm' om ++ compRender 's' os)) =
      (optVal oh, compRender 'm' om ++ compRender 's' os) :=
    parseComponent_render 'h' (by decide) oh h2 _ ['m', 's'] hMS (by decide)
  have step3 : parseComponent 'm' (compRender 'm' om ++ compRender 's' os) =
      (optVal om, compRender 's' os) :=
    parseComponent_render 'm' (by decide) om h3 _ ['s'] hSnil (by decide)
  have step4 : parseComponent 's' (compRender 's' os) = (optVal os, []) := by
    have := parseComponent_render 's' (by decide) os h4 [] [] (Or.inl rfl) (by decide)
    simpa using this
  unfold parse_bound_chars
  simp only [boundRender] at step1 ⊢
  simp only [step1, step2, step3, step4]
  simp

lemma parseComponent_shape {suffix : Char} {cs : List Char} {v : Nat}
    {rest : List Char} (h : parseComponent suffix cs = (v, rest)) :
    ∃ oc, specOk oc ∧ cs = compRender suffix oc ++ rest := by
  unfold parseComponent at h
  cases hd : cs.dropWhile Char.isDigit with
  | nil =>
    rw [hd] at h
    have h2 : cs = rest := congrArg Prod.snd h
    exact ⟨none, trivial, by simp [compRender, ← h2]⟩
  | cons c rest2 =>
    rw [hd] at h
    have h' : (if cs.takeWhile Char.isDigit ≠ [] ∧ c = suffix then
        (digitsToNat (cs.takeWhile Char.isDigit), rest2) else (0, cs)) = (v, rest) := h
    by_cases hc : (cs.takeWhile Char.isDigit ≠ [] ∧ c = suffix)
    · rw [if_pos hc] at h'
      have h2 : rest2 = rest := congrArg Prod.snd h'
      refine ⟨some (cs.takeWhile Char.isDigit),
        ⟨hc.1, fun x hx => List.mem_takeWhile_imp hx⟩, ?_⟩
      have hsplit : cs = cs.takeWhile Char.isDigit ++ cs.dropWhile Char.isDigit :=
        (List.takeWhile_append_dropWhile _ _).symm
      rw [hd, hc.2, h2] at hsplit
      rw [compRender]
      conv_lhs => rw [hsplit]
      simp
    · rw [if_neg hc] at h'
      have h2 : cs = rest := congrArg Prod.snd h'
      exact ⟨none, trivial, by simp [compRender, ← h2]⟩

lemma parse_bound_chars_shape {cs : List Char} {n : Nat}
    (h : parse_bound_chars cs = some n) : matchesGrammar cs := by
  obtain ⟨v1, r1, hq1⟩ : ∃ v r, parseComponent 'd' cs = (v, r) := ⟨_, _, rfl⟩
  obtain ⟨v2, r2, hq2⟩ : ∃ v r, parseComponent 'h' r1 = (v, r) := ⟨_, _, rfl⟩
  obtain ⟨v3, r3, hq3⟩ : ∃ v r, parseComponent 'm' r2 = (v, r) := ⟨_, _, rfl⟩
  obtain ⟨v4, r4, hq4⟩ : ∃ v r, parseComponent 's' r3 = (v, r) := ⟨_, _, rfl⟩
  unfold parse_bound_chars at h
  simp only [hq1, hq2, hq3, hq4] at h
  have hend : r4 = [] := by
    by_contra hne
    rw [if_neg hne] at h
    cases h
  obtain ⟨od, hod, e1⟩ := parseComponent_shape hq1
  obtain ⟨oh, hoh, e2⟩ := parseComponent_shape hq2
  obtain ⟨om, hom, e3⟩ := parseComponent_shape hq3
  obtain ⟨os, hos, e4⟩ := parseComponent_shape hq4
  refine ⟨od, oh, om, os, hod, hoh, hom, hos, ?_⟩
  rw [boundRender, e1, e2, e3, e4, hend]
  simp

lemma matchesGrammar_iff (cs : List Char) :
    matchesGrammar cs ↔ (parse_bound_chars cs).isSome = true := by
  constructor
  · rintro ⟨d, h, m, s, hd, hh, hm, hs, rfl⟩
    rw [parse_bound_chars_render d h m s hd hh hm hs]
    rfl
  · intro h
    cases hp : parse_bound_chars cs with
    | none =>
      rw [hp] at h
      cases h
    | some n => exact parse_bound_chars_shape hp

/-! ## Claim theorems -/

/-- Claim C1: for every subset of enabled phases, the dependency lists
`submit_jobs` passes to the backend satisfy: `property` and `coverage`
each depend on exactly `[buildJobId]` if `build` was submitted and on `[]`
otherwise; `report`'s dependency list equals exactly the job-identifiers of
whichever of `property` and `coverage` were submitted, property's first,
with no duplicates (given the backend returns distinct identifiers to
distinct submissions), and is empty if neither was submitted. -/
theorem submit_jobs_dependency_lists (cb : CBMC) (oracle : Nat → SubmitResult)
    (hids : cb.property = true → cb.coverage = true →
      (cb.submit_jobs oracle).1.property.jobid ≠ (cb.submit_jobs oracle).1.coverage.jobid) :
    (cb.property = true →
      ∃ req ∈ (cb.submit_jobs oracle).2, req.jobName = cb.jobname ++ "-property") ∧
    (cb.coverage = true →
      ∃ req ∈ (cb.submit_jobs oracle).2, req.jobName = cb.jobname ++ "-coverage") ∧
    (cb.report = true →
      ∃ req ∈ (cb.submit_jobs oracle).2, req.jobName = cb.jobname ++ "-report") ∧
    (∀ req ∈ (cb.submit_jobs oracle).2,
      (req.jobName = cb.jobname ++ "-property" →
        req.dependsOn =
          (if cb.build then [(cb.submit_jobs oracle).1.build.jobid] else [])) ∧
      (req.jobName = cb.jobname ++ "-coverage" →
        req.dependsOn =
          (if cb.build then [(cb.submit_jobs oracle).1.build.jobid] else [])) ∧
      (req.jobName = cb.jobname ++ "-report" →
        req.dependsOn =
          (if cb.property then [(cb.submit_jobs oracle).1.property.jobid] else []) ++
          (if cb.coverage then [(cb.submit_jobs oracle).1.coverage.jobid] else []) ∧
        req.dependsOn.Nodup ∧
        (cb.property = false → cb.coverage = false → req.dependsOn = []))) := by
  rw [submit_jobs_eq] at hids ⊢
  refine ⟨?_, ?_, ?_, ?_⟩
  · intro hp
    exact ⟨CBMCpropReq cb oracle, by simp [hp], rfl⟩
  · intro hc
    exact ⟨CBMCcovReq cb oracle, by simp [hc], rfl⟩
  · intro hr
    exact ⟨CBMCrepReq cb oracle, by simp [hr], rfl⟩
  · intro req hreq
    simp only [List.mem_append] at hreq
    rcases hreq with ((h | h) | h) | h
    · have he := mem_ite_singleton h
      subst he
      refine ⟨?_, ?_, ?_⟩ <;> intro hn <;>
        simp [CBMCbuildReq, append_right_inj] at hn
    · have he := mem_ite_singleton h
      subst he
      refine ⟨?_, ?_, ?_⟩
      · intro hn
        cases hb : cb.build <;> simp [CBMCpropReq, hb]
      · intro hn
        simp [CBMCpropReq, append_right_inj] at hn
      · intro hn
        simp [CBMCpropReq, append_right_inj] at hn
    · have he := mem_ite_singleton h
      subst he
      refine ⟨?_, ?_, ?_⟩
      · intro hn
        simp [CBMCcovReq, append_right_inj] at hn
      · intro hn
        cases hb : cb.build <;> simp [CBMCcovReq, hb]
      · intro hn
        simp [CBMCcovReq, append_right_inj] at hn
    · have he := mem_ite_singleton h
      subst he
      refine ⟨?_, ?_, ?_⟩
      · intro hn
        simp [CBMCrepReq, append_right_inj] at hn
      · intro hn
        simp [CBMCrepReq, append_right_inj] at hn
      · intro hn
        refine ⟨?_, ?_, ?_⟩
        · cases hp : cb.property <;> cases hc : cb.coverage <;>
            simp [CBMCrepReq, hp, hc]
        · cases hp : cb.property <;> cases hc : cb.coverage <;>
            simp [CBMCrepReq, hp, hc]
          have h2 := hids hp hc
          simp [hp, hc] at h2
          exact h2
        · intro hp hc
          simp [CBMCrepReq, hp, hc]

/-- Witness for C1: at a concrete all-phases-enabled run with a backend
returning distinct ids, the property submission depends on exactly the
build job id and the report submission's dependency list has no
duplicates. -/
theorem submit_jobs_dependency_lists_witness :
    (CBMCpropReq cbWitA orWitA).dependsOn = [(cbWitA.submit_jobs orWitA).1.build.jobid] ∧
    (CBMCrepReq cbWitA orWitA).dependsOn.Nodup := by
  have h := submit_jobs_dependency_lists cbWitA orWitA (by intro _ _; decide)
  have hp := (h.2.2.2 (CBMCpropReq cbWitA orWitA) (by decide)).1 rfl
  have hr := (h.2.2.2 (CBMCrepReq cbWitA orWitA) (by decide)).2.2 rfl
  exact ⟨hp, hr.2.1⟩

/-- Claim C2: `submit_jobs` performs exactly one submission per enabled
phase, in build, property, coverage, report order; the aggregate result
carries the run's job name, maps every unsubmitted phase to
`{jobid: null, jobname: null}` and every submitted phase to the pair
returned by the backend for that submission. -/
theorem submit_jobs_counts_and_results (cb : CBMC) (oracle : Nat → SubmitResult) :
    (cb.submit_jobs oracle).2.length =
      cond cb.build 1 0 + cond cb.property 1 0 + cond cb.coverage 1 0 +
        cond cb.report 1 0 ∧
    (cb.submit_jobs oracle).2.map (fun r => r.jobName) =
      (if cb.build then [cb.jobname ++ "-build"] else []) ++
      (if cb.property then [cb.jobname ++ "-property"] else []) ++
      (if cb.coverage then [cb.jobname ++ "-coverage"] else []) ++
      (if cb.report then [cb.jobname ++ "-report"] else []) ∧
    (cb.submit_jobs oracle).1.jobname = cb.jobname ∧
    (cb.submit_jobs oracle).1.build = (if cb.build then oracle 0 else nullJob) ∧
    (cb.submit_jobs oracle).1.property =
      (if cb.property then oracle (bIdx cb) else nullJob) ∧
    (cb.submit_jobs oracle).1.coverage =
      (if cb.coverage then oracle (pIdx cb) else nullJob) ∧
    (cb.submit_jobs oracle).1.report =
      (if cb.report then oracle (cIdx cb) else nullJob) := by
  rw [submit_jobs_eq]
  refine ⟨?_, ?_, rfl, rfl, rfl, rfl, rfl⟩
  · cases cb.build <;> cases cb.property <;> cases cb.coverage <;> cases cb.report <;>
      simp [CBMCbuildReq, CBMCpropReq, CBMCcovReq, CBMCrepReq]
  · cases cb.build <;> cases cb.property <;> cases cb.coverage <;> cases cb.report <;>
      simp [CBMCbuildReq, CBMCpropReq, CBMCcovReq, CBMCrepReq]

/-- Claim C3: `parse_bound` maps every duration string of the grammar
`^(\d+d)?(\d+h)?(\d+m)?(\d+s)?$` (after whitespace removal) to its total
second count, maps `""` to 0 and `"1d2h3m4s"` to `((1*24+2)*60+3)*60+4`,
maps `None` to the maximum representable wait (`sys.maxsize`), and fails
with the invalid-duration error on every string outside the grammar. -/
theorem parse_bound_duration_grammar :
    parse_bound none = .ok sysMaxsize ∧
    parse_bound (some "") = .ok 0 ∧
    parse_bound (some "1d2h3m4s") = .ok (((1 * 24 + 2) * 60 + 3) * 60 + 4) ∧
    (∀ (s : String) (od oh om os : Option (List Char)),
      specOk od → specOk oh → specOk om → specOk os →
      removeSpaces s.data = boundRender od oh om os →
      parse_bound (some s) =
        .ok ((((optVal od) * 24 + optVal oh) * 60 + optVal om) * 60 + optVal os)) ∧
    (∀ s : String, ¬ matchesGrammar (removeSpaces s.data) →
      parse_bound (some s) = .error (.invalidDuration s)) := by
  refine ⟨rfl, by decide, by decide, ?_, ?_⟩
  · intro s od oh om os h1 h2 h3 h4 hmatch
    show (match parse_bound_chars (removeSpaces s.data) with
      | some n => Except.ok n
      | none => Except.error (LockErr.invalidDuration s)) = _
    rw [hmatch, parse_bound_chars_render od oh om os h1 h2 h3 h4]
  · intro s hno
    show (match parse_bound_chars (removeSpaces s.data) with
      | some n => Except.ok n
      | none => Except.error (LockErr.invalidDuration s)) = _
    cases hp : parse_bound_chars (removeSpaces s.data) with
    | none => rfl
    | some n =>
      exact absurd (parse_bound_chars_shape hp) hno

/-- Witness for C3: a concrete grammar string with embedded whitespace
parses to its second count, and a concrete non-grammar string fails with
the invalid-duration error. -/
theorem parse_bound_duration_grammar_witness :
    parse_bound (some " 1d 2h3m4s ") = .ok 93784 ∧
    parse_bound (some "1x2") = .error (.invalidDuration "1x2") := by
  constructor
  · have h := parse_bound_duration_grammar.2.2.2.1 " 1d 2h3m4s "
      (some ['1']) (some ['2']) (some ['3']) (some ['4'])
      ⟨by decide, by decide⟩ ⟨by decide, by decide⟩ ⟨by decide, by decide⟩
      ⟨by decide, by decide⟩ (by decide)
    rw [h]
    decide
  · exact parse_bound_duration_grammar.2.2.2.2 "1x2" (by rw [matchesGrammar_iff]; decide)

/-- Counterexample for C4 as stated: the attempt budget is the bound
divided by the interval rounded DOWN plus one, not rounded up.  At
`bound = "31s"`, `interval = 5`, the code computes `31 // 5 + 1 = 7`
attempts, while rounding up would give `⌈31/5⌉ + 1 = 8`. -/
theorem wait_attempts_rounds_down_cex :
    Lock.wait_attempts 5 (some "31s") = .ok 7 ∧
    ¬ Lock.wait_attempts 5 (some "31s") = .ok ((31 + 5 - 1) / 5 + 1) := by
  decide

/-- Claim C4 (amended): for every valid lock name, positive poll interval
and parseable bound, `wait_for_set`/`wait_for_unset` use an attempt budget
of the bound floor-divided by the interval plus one, and fail with the
lock-timeout error when the condition never holds within that budget. -/
theorem wait_for_set_floor_budget_timeout (lk : Lock) (worldAt : Nat → S3World)
    (lock : String) (interval : Nat) (bound : String) (B : Nat)
    (hl : lock ∈ LOCKS) (hi : 0 < interval)
    (hobj : s3.is_object (lk.lock_path lock) = true)
    (hb : parse_bound (some bound) = .ok B)
    (hnever : ∀ t, s3.object_exists (worldAt t) (lk.lock_path lock) = false) :
    Lock.wait_attempts interval (some bound) = .ok (B / interval + 1) ∧
    Lock.wait_for_set lk worldAt lock interval (some bound) =
      .error .lockTimeout ∧
    (∀ worldAt2 : Nat → S3World,
      (∀ t, s3.object_exists (worldAt2 t) (lk.lock_path lock) = true) →
      Lock.wait_for_unset lk worldAt2 lock interval (some bound) =
        .error .lockTimeout) := by
  have hv : Lock.validate_lock lock = .ok () := by
    simp [Lock.validate_lock, hl]
  have ha : Lock.wait_attempts interval (some bound) = .ok (B / interval + 1) := by
    simp [Lock.wait_attempts, hb]
  refine ⟨ha, ?_, ?_⟩
  · simp only [Lock.wait_for_set, hv, ha]
    unfold s3.wait_for_object_condition
    rw [hobj]
    simp only [Bool.true_eq_false, if_false]
    rw [List.find?_eq_none.mpr]
    intro t _
    simp [hnever t]
  · intro worldAt2 halways
    simp only [Lock.wait_for_unset, hv, ha]
    unfold s3.wait_for_object_condition
    rw [hobj]
    simp only [Bool.true_eq_false, if_false]
    rw [List.find?_eq_none.mpr]
    intro t _
    simp [halways t]

/-- Witness for C4 (amended): scenario C of the spec —
`wait_for_set("build.txt", interval=5, bound="30s")` against a store that
never sets the lock computes an attempt budget of exactly 7 and fails
with the lock-timeout error. -/
theorem wait_for_set_floor_budget_timeout_witness :
    Lock.wait_attempts 5 (some "30s") = .ok 7 ∧
    Lock.wait_for_set ⟨"bkt", ""⟩ (fun _ => ⟨["bkt"], []⟩) "build.txt" 5 (some "30s") =
      .error .lockTimeout := by
  have h := wait_for_set_floor_budget_timeout ⟨"bkt", ""⟩ (fun _ => ⟨["bkt"], []⟩)
    "build.txt" 5 "30s" 30 (by decide) (by decide) (by decide) (by decide) (fun _ => rfl)
  refine ⟨?_, h.2.1⟩
  rw [h.1]

/-- Claim C5: every lock operation on a name outside the fixed set
(including the empty string and case variants) fails with the
invalid-lock-name error, for every store state and without touching the
store. -/
theorem invalid_lock_name_always_rejected (lk : Lock) (w : S3World)
    (worldAt : Nat → S3World) (name : String) (interval : Nat)
    (bound : Option String) (h : name ∉ LOCKS) :
    Lock.set lk w name = (.error (.invalidLockName name), w) ∧
    Lock.unset lk w name = (.error (.invalidLockName name), w) ∧
    Lock.is_set lk w name = .error (.invalidLockName name) ∧
    Lock.is_unset lk w name = .error (.invalidLockName name) ∧
    Lock.wait_for_set lk worldAt name interval bound =
      .error (.invalidLockName name) ∧
    Lock.wait_for_unset lk worldAt name interval bound =
      .error (.invalidLockName name) := by
  have hv : Lock.validate_lock name = .error (.invalidLockName name) := by
    simp [Lock.validate_lock, h]
  refine ⟨?_, ?_, ?_, ?_, ?_, ?_⟩ <;>
    simp [Lock.set, Lock.unset, Lock.is_set, Lock.is_unset, Lock.wait_for_set,
      Lock.wait_for_unset, hv]

/-- Witness for C5: the case variant `"BUILD.TXT"` is rejected with the
invalid-lock-name error by set, is_set and wait_for_set, leaving the
store unchanged. -/
theorem invalid_lock_name_always_rejected_witness :
    Lock.set ⟨"bkt", ""⟩ ⟨["bkt"], []⟩ "BUILD.TXT" =
      (.error (.invalidLockName "BUILD.TXT"), ⟨["bkt"], []⟩) ∧
    Lock.is_set ⟨"bkt", ""⟩ ⟨["bkt"], []⟩ "BUILD.TXT" =
      .error (.invalidLockName "BUILD.TXT") ∧
    Lock.wait_for_set ⟨"bkt", ""⟩ (fun _ => ⟨["bkt"], []⟩) "BUILD.TXT" 15 none =
      .error (.invalidLockName "BUILD.TXT") := by
  have h := invalid_lock_name_always_rejected ⟨"bkt", ""⟩ ⟨["bkt"], []⟩
    (fun _ => ⟨["bkt"], []⟩) "BUILD.TXT" 15 none (by decide)
  exact ⟨h.1, h.2.2.1, h.2.2.2.2.1⟩

/-- Claim C6: in the single-writer no-propagation-delay store model, for
every valid lock name: set followed by is_set returns true; set is
idempotent; unset succeeds afterwards and unset followed by is_unset
returns true; unset is idempotent; and unset of an already absent lock
succeeds as a no-op rather than raising an error. -/
theorem lock_set_unset_idempotent_algebra (lk : Lock) (w : S3World) (lock : String)
    (hl : lock ∈ LOCKS)
    (hobj : s3.is_object (lk.lock_path lock) = true)
    (hbkt : s3.bucket_exists w ((s3.bucket_name (lk.lock_path lock)).getD "") = true) :
    (Lock.set lk w lock).1 = .ok () ∧
    Lock.is_set lk (Lock.set lk w lock).2 lock = .ok true ∧
    Lock.set lk (Lock.set lk w lock).2 lock = (.ok (), (Lock.set lk w lock).2) ∧
    (Lock.unset lk (Lock.set lk w lock).2 lock).1 = .ok () ∧
    Lock.is_unset lk (Lock.unset lk (Lock.set lk w lock).2 lock).2 lock = .ok true ∧
    Lock.unset lk (Lock.unset lk (Lock.set lk w lock).2 lock).2 lock =
      (.ok (), (Lock.unset lk (Lock.set lk w lock).2 lock).2) ∧
    (s3.object_exists w (lk.lock_path lock) = false →
      Lock.unset lk w lock = (.ok (), w)) := by
  obtain ⟨b, k, hpp⟩ := is_object_parse hobj
  have hbkt2 : s3.bucket_exists w b = true := by
    simpa [s3.bucket_name, hpp] using hbkt
  have hbkt3 : ∀ objs, s3.bucket_exists ⟨w.buckets, objs⟩ b = true := by
    intro objs
    unfold s3.bucket_exists at hbkt2 ⊢
    cases hq : s3.parse_path b with
    | none =>
      rw [hq] at hbkt2
      simp at hbkt2
    | some pr =>
      obtain ⟨b2, ko⟩ := pr
      cases ko with
      | none =>
        rw [hq] at hbkt2
        simpa using hbkt2
      | some k2 =>
        rw [hq] at hbkt2
        simp at hbkt2
  have hset := lock_set_eq lk w lock b k hl hpp
  set objs1 : List (String × String) :=
    if w.objects.contains (b, k) then w.objects else w.objects ++ [(b, k)] with hobjs1
  have hmem1 : (b, k) ∈ objs1 := by
    rw [hobjs1]
    by_cases hc : (b, k) ∈ w.objects
    · simp [List.elem_iff, hc]
    · simp [List.elem_iff, hc]
  have huns := lock_unset_eq lk ⟨w.buckets, objs1⟩ lock b k hl hpp (hbkt3 objs1)
  refine ⟨by simp [hset], ?_, ?_, ?_, ?_, ?_, ?_⟩
  · rw [hset]
    rw [lock_is_set_eq lk ⟨w.buckets, objs1⟩ lock b k hl hpp]
    simp [List.elem_iff, hmem1]
  · rw [hset, lock_set_eq lk ⟨w.buckets, objs1⟩ lock b k hl hpp]
    simp [hmem1]
  · rw [hset]
    simp [huns]
  · rw [hset]
    simp only []
    rw [huns]
    rw [lock_is_unset_eq lk ⟨w.buckets, objs1.filter (fun o => o ≠ (b, k))⟩ lock b k hl hpp]
    simp [List.elem_iff, List.mem_filter]
  · rw [hset]
    simp only []
    rw [huns]
    simp only []
    rw [lock_unset_eq lk ⟨w.buckets, objs1.filter (fun o => o ≠ (b, k))⟩ lock b k hl hpp
      (hbkt3 _)]
    simp [filter_ne_idem]
  · intro habs
    have hnm : (b, k) ∉ w.objects := by
      simpa [s3.object_exists, hpp, List.elem_iff] using habs
    have hfe : w.objects.filter (fun o => o ≠ (b, k)) = w.objects := by
      apply List.filter_eq_self.mpr
      intro a ha
      simp only [ne_eq, decide_eq_true_eq]
      intro he
      exact hnm (he ▸ ha)
    rw [lock_unset_eq lk w lock b k hl hpp hbkt2, hfe]

/-- Witness for C6: at a concrete bucket and the `build.txt` lock, set
then is_set yields true, and unset of the absent lock is a successful
no-op. -/
theorem lock_set_unset_idempotent_algebra_witness :
    (Lock.set ⟨"bkt", ""⟩ ⟨["bkt"], []⟩ "build.txt").1 = .ok () ∧
    Lock.is_set ⟨"bkt", ""⟩ (Lock.set ⟨"bkt", ""⟩ ⟨["bkt"], []⟩ "build.txt").2 "build.txt" =
      .ok true ∧
    (s3.object_exists ⟨["bkt"], []⟩ (Lock.lock_path ⟨"bkt", ""⟩ "build.txt") = false →
      Lock.unset ⟨"bkt", ""⟩ ⟨["bkt"], []⟩ "build.txt" = (.ok (), ⟨["bkt"], []⟩)) := by
  have h := lock_set_unset_idempotent_algebra ⟨"bkt", ""⟩ ⟨["bkt"], []⟩ "build.txt"
    (by decide) (by decide) (by decide)
  exact ⟨h.1, h.2.1, h.2.2.2.2.2.2⟩

/-- Counterexample for C7 as stated: `job_status` does not deduplicate by
identifier.  Against a backend that lists the same job id under both
RUNNING and SUCCEEDED within one poll, the result carries two entries for
that id. -/
theorem job_status_no_dedup_cex :
    ¬ (((Batch.job_status ⟨"jd", "q", "r"⟩ c7CexBackend none (some "n1")).1.map
        (fun e => e.jobId)).Nodup) ∧
    (Batch.job_status ⟨"jd", "q", "r"⟩ c7CexBackend none (some "n1")).1 =
      [⟨"job1", "n1", "RUNNING"⟩, ⟨"job1", "n1", "SUCCEEDED"⟩] := by
  decide

/-- Claim C7 (amended): one `job_status` poll issues exactly one list
query per status value in the seven-status set, keeps exactly the jobs
whose id matches the id filter or whose name matches the name filter as a
substring/regex (not exact) match, concatenated per status without
deduplication; the result has at most one entry per job identifier
whenever the backend lists each identifier at most once across its status
lists. -/
theorem job_status_per_status_queries (b : Batch)
    (backend : String → String → List JobSummary) (jobid jobname : Option String) :
    (Batch.job_status b backend jobid jobname).2 =
      STATUSES.map (fun status => (b.jobqueue, status)) ∧
    (∀ e : JobStatusEntry,
      e ∈ (Batch.job_status b backend jobid jobname).1 ↔
        e.status ∈ STATUSES ∧
        (⟨e.jobId, e.jobName⟩ : JobSummary) ∈ backend b.jobqueue e.status ∧
        (optSearch jobid e.jobId || optSearch jobname e.jobName) = true) ∧
    ((STATUSES.flatMap
        (fun status => (backend b.jobqueue status).map (fun j => j.jobId))).Nodup →
      ((Batch.job_status b backend jobid jobname).1.map
        (fun e => e.jobId)).Nodup) := by
  rw [job_status_eq]
  refine ⟨rfl, ?_, ?_⟩
  · intro e
    simp only [List.mem_flatMap, List.mem_map, List.mem_filter]
    constructor
    · rintro ⟨st, hst, j, ⟨hj, hflt⟩, he⟩
      cases e
      cases he
      exact ⟨hst, hj, hflt⟩
    · rintro ⟨hst, hj, hflt⟩
      exact ⟨e.status, hst, ⟨e.jobId, e.jobName⟩, ⟨hj, hflt⟩, rfl⟩
  · intro hnd
    apply List.Nodup.sublist ?_ hnd
    rw [List.map_flatMap]
    apply flatMap_sublist
    intro st
    rw [List.map_map]
    have : ((backend b.jobqueue st).filter (statusFilter jobid jobname)).Sublist
        (backend b.jobqueue st) := List.filter_sublist _
    simpa using this.map (fun j => j.jobId)

/-- Witness for C7 (amended): at a concrete backend listing each id under
one status, the poll issues the seven per-status queries in order and its
result has no duplicate identifiers. -/
theorem job_status_per_status_queries_witness :
    (Batch.job_status ⟨"jd", "q", "r"⟩ c7WitBackend none (some "n1")).2 =
      STATUSES.map (fun status => ("q", status)) ∧
    ((Batch.job_status ⟨"jd", "q", "r"⟩ c7WitBackend none (some "n1")).1.map
      (fun e => e.jobId)).Nodup := by
  have h := job_status_per_status_queries ⟨"jd", "q", "r"⟩ c7WitBackend none (some "n1")
  exact ⟨h.1, h.2.2 (by decide)⟩

/-- Claim C8 (code bug): `monitor_status`'s loop body rebinds the `jobid`
filter parameter (`jobid = job['jobId']`), so polls after the first do not
use the caller's filter.  At the failing input — id filter `"job"`,
backend where `job1` and `job2` are RUNNING at poll 0 and SUCCEEDED from
poll 1 on — the first poll uses the caller's filter but every later poll
uses `"job2"`; a direct `job_status` with the caller's filter at time 1
would show both jobs SUCCEEDED, yet the monitor never observes `job1`'s
terminal status and fails to terminate. -/
theorem monitor_status_shadowed_filter_bug :
    (Batch.job_status monitorDemoBatch (monitorDemoBackend 1) (some "job") none).1 =
      [⟨"job1", "name1", "SUCCEEDED"⟩, ⟨"job2", "name2", "SUCCEEDED"⟩] ∧
    (monitor_status monitorDemoBatch monitorDemoBackend none (some "job") 4).polls =
      [(some "job", none), (some "job2", none), (some "job2", none),
       (some "job2", none)] ∧
    (monitor_status monitorDemoBatch monitorDemoBackend none (some "job") 4).finished
      = false ∧
    lookupT (monitor_status monitorDemoBatch monitorDemoBackend none
        (some "job") 4).tracked "job1" = some ⟨"job1", "name1", "RUNNING"⟩ := by
  decide

/-- Claim C9: if more than one of the four container phase flags resolves
to true (command line over config file over defaults), `container_merge`
fails with the configuration error; and every phase submission built by
`submit_jobs` carries exactly one of the `--do*` flags together with
`--jobname` set to the derived `<runName>-<phaseName>` name (given the
opaque json/region strings are not themselves `--do*` flags). -/
theorem container_flags_and_submission_commands (args config : ContainerArgs)
    (cb : CBMC) (oracle : Nat → SubmitResult)
    (hjs : isDoFlag cb.jsons = false) (hrg : isDoFlag cb.region = false) :
    (more_than_one_set
        [merge args.dobuild config.dobuild false,
         merge args.doproperty config.doproperty false,
         merge args.docoverage config.docoverage false,
         merge args.doreport config.doreport false] = true →
      container_merge args config =
        .error "Too many commands passed to docker container.") ∧
    (∀ req ∈ (cb.submit_jobs oracle).2,
      ∃ pr ∈ phasePairs,
        req.jobName = cb.jobname ++ pr.2 ∧
        req.command = some ["--jsons", cb.jsons, pr.1, "--jobname",
                            cb.jobname ++ pr.2, "--region", cb.region] ∧
        (req.command.getD []).countP isDoFlag = 1) := by
  constructor
  · intro h
    simp [container_merge, h]
  · rw [submit_jobs_eq]
    intro req hreq
    simp only [List.mem_append] at hreq
    rcases hreq with ((h | h) | h) | h
    · have he := mem_ite_singleton h
      subst he
      refine ⟨("--dobuild", "-build"), by simp [phasePairs], rfl, rfl, ?_⟩
      simp [CBMCbuildReq, List.countP_cons, hjs, hrg]
    · have he := mem_ite_singleton h
      subst he
      refine ⟨("--doproperty", "-property"), by simp [phasePairs], rfl, rfl, ?_⟩
      simp [CBMCpropReq, List.countP_cons, hjs, hrg]
    · have he := mem_ite_singleton h
      subst he
      refine ⟨("--docoverage", "-coverage"), by simp [phasePairs], rfl, rfl, ?_⟩
      simp [CBMCcovReq, List.countP_cons, hjs, hrg]
    · have he := mem_ite_singleton h
      subst he
      refine ⟨("--doreport", "-report"), by simp [phasePairs], rfl, rfl, ?_⟩
      simp [CBMCrepReq, List.countP_cons, hjs, hrg]

/-- Witness for C9: two flags set on the command line make
`container_merge` fail, and the concrete build submission carries exactly
one `--do*` flag and the derived job name. -/
theorem container_flags_and_submission_commands_witness :
    container_merge ⟨some true, some true, none, none⟩ ⟨none, none, none, none⟩ =
      .error "Too many commands passed to docker container." ∧
    (∃ pr ∈ phasePairs,
      (CBMCbuildReq cbWitB).jobName = cbWitB.jobname ++ pr.2 ∧
      (CBMCbuildReq cbWitB).command = some ["--jsons", cbWitB.jsons, pr.1, "--jobname",
        cbWitB.jobname ++ pr.2, "--region", cbWitB.region] ∧
      ((CBMCbuildReq cbWitB).command.getD []).countP isDoFlag = 1) := by
  have h := container_flags_and_submission_commands ⟨some true, some true, none, none⟩
    ⟨none, none, none, none⟩ cbWitB orWitB (by decide) (by decide)
  exact ⟨h.1 (by decide), h.2 (CBMCbuildReq cbWitB) (by decide)⟩

/-- Claim C10: when both filters are absent, the per-status filter rejects
every job, so the first poll returns the empty list and `monitor_status`
terminates after that single poll cycle, with no sleep and no change
notification, for every backend. -/
theorem monitor_status_empty_poll_terminates (b : Batch)
    (backendAt : Nat → String → String → List JobSummary) (fuel : Nat) :
    (Batch.job_status b (backendAt 0) none none).1 = [] ∧
    monitor_status b backendAt none none (fuel + 1) =
      ⟨true, [(none, none)], [], 0, []⟩ := by
  have hempty : ∀ t, (Batch.job_status b (backendAt t) none none).1 = [] := by
    intro t
    rw [job_status_eq]
    simp [statusFilter, optSearch]
  refine ⟨hempty 0, ?_⟩
  unfold monitor_status monitorGo
  rw [hempty 0]
  simp [isTerminal]
